import Mathlib

/-!
Verification of the streaming client in `src/index.ts` (the `_stream` method of
the `OpenAI` class and its request construction).  The embedding models:

* the JavaScript `JSON.parse` collaborator (on the JSON fragment exercised by
  the client: null, booleans, integer numbers, strings with simple escapes,
  arrays, objects) as `jsonParseModel`;
* `JSON.stringify` on that fragment as `stringifyVal`;
* the request built at lines 519-529 (`streamRequest`), including the JS
  object-spread `\x7b ...params, stream: true \x7d` (`jsSet` / `withStream`),
  and a small object-store model of the spread's allocation behaviour
  (`allocSpreadStream`);
* the three `EventSource` listeners installed at lines 531-555
  (`handleMessage`, `handleTransportError`, `handleOpen`) and the resulting
  session semantics over a list of transport events (`runSession`), where
  `eventSource.close()` stops all further dispatch.

Caller callbacks may throw: a callback is modelled by the message of the
exception it throws (`some m`) or normal return (`none`), and a handler
returns the calls it made, whether it invoked `close()`, and the exception
escaping to the event loop, if any.
-/

/-- JSON values as produced by the `JSON.parse` collaborator and consumed by
`JSON.stringify`.  Numbers are modelled as integers: the client only ever
forwards parsed values opaquely, so the numeric fragment is irrelevant to the
session logic. -/
inductive JVal : Type where
  | jnull : JVal
  | jbool : Bool → JVal
  | jnum : Int → JVal
  | jstr : String → JVal
  | jarr : List JVal → JVal
  | jobj : List (String × JVal) → JVal

/-- JSON whitespace. -/
def isWsChar (c : Char) : Bool :=
  c = ' ' || c = '\n' || c = '\t' || c = '\r'

/-- Drop leading JSON whitespace. -/
def skipWs : List Char → List Char
  | [] => []
  | c :: cs => if isWsChar c then skipWs cs else c :: cs

/-- Simple-escape table of JSON string literals. -/
def escTable (c : Char) : Option Char :=
  if c = '"' then some '"'
  else if c = '\\' then some '\\'
  else if c = '/' then some '/'
  else if c = 'n' then some '\n'
  else if c = 't' then some '\t'
  else if c = 'r' then some '\r'
  else none

/-- Parse the body of a JSON string literal (the opening quote already
consumed), returning the decoded characters and the rest of the input. -/
def parseStringBody : List Char → Except String (List Char × List Char)
  | [] => Except.error "Unterminated string in JSON"
  | c :: cs =>
    if c = '"' then Except.ok ([], cs)
    else if c = '\\' then
      match cs with
      | [] => Except.error "Unterminated string in JSON"
      | e :: cs2 =>
        match escTable e with
        | none => Except.error "Bad escaped character in JSON"
        | some ec =>
          match parseStringBody cs2 with
          | Except.error m => Except.error m
          | Except.ok (body, rest) => Except.ok (ec :: body, rest)
    else
      match parseStringBody cs with
      | Except.error m => Except.error m
      | Except.ok (body, rest) => Except.ok (c :: body, rest)

/-- Take a maximal run of decimal digits. -/
def takeDigits : List Char → List Char × List Char
  | [] => ([], [])
  | c :: cs =>
    if c.isDigit then
      let p := takeDigits cs
      (c :: p.1, p.2)
    else ([], c :: cs)

/-- Numeric value of a digit run. -/
def digitsVal (ds : List Char) : Nat :=
  ds.foldl (fun acc c => acc * 10 + (c.toNat - 48)) 0

/-- Parse an integer JSON number (optional leading minus). -/
def parseNumber (cs : List Char) : Except String (JVal × List Char) :=
  match cs with
  | '-' :: rest =>
    let p := takeDigits rest
    if p.1.isEmpty then Except.error "Unexpected token - in JSON"
    else Except.ok (JVal.jnum (-(Int.ofNat (digitsVal p.1))), p.2)
  | other =>
    let p := takeDigits other
    if p.1.isEmpty then Except.error "Unexpected token in JSON"
    else Except.ok (JVal.jnum (Int.ofNat (digitsVal p.1)), p.2)

/-- Strip an expected literal token from the input. -/
def stripToken : List Char → List Char → Option (List Char)
  | [], cs => some cs
  | _ :: _, [] => none
  | t :: ts, c :: cs => if c = t then stripToken ts cs else none

mutual

/-- Recursive-descent JSON value parse, fuelled to bound nesting. -/
def parseVal : Nat → List Char → Except String (JVal × List Char)
  | 0, _ => Except.error "JSON input too deeply nested"
  | Nat.succ fuel, cs =>
    match skipWs cs with
    | [] => Except.error "Unexpected end of JSON input"
    | c :: rest =>
      if c = 'n' then
        match stripToken ['u', 'l', 'l'] rest with
        | some r2 => Except.ok (JVal.jnull, r2)
        | none => Except.error "Unexpected token n in JSON"
      else if c = 't' then
        match stripToken ['r', 'u', 'e'] rest with
        | some r2 => Except.ok (JVal.jbool true, r2)
        | none => Except.error "Unexpected token t in JSON"
      else if c = 'f' then
        match stripToken ['a', 'l', 's', 'e'] rest with
        | some r2 => Except.ok (JVal.jbool false, r2)
        | none => Except.error "Unexpected token f in JSON"
      else if c = '"' then
        match parseStringBody rest with
        | Except.error m => Except.error m
        | Except.ok (body, r2) => Except.ok (JVal.jstr (String.mk body), r2)
      else if c = '[' then
        match skipWs rest with
        | ']' :: r2 => Except.ok (JVal.jarr [], r2)
        | r1 =>
          match parseArrElems fuel r1 with
          | Except.error m => Except.error m
          | Except.ok (xs, r2) => Except.ok (JVal.jarr xs, r2)
      else if c = '\x7b' then
        match skipWs rest with
        | '\x7d' :: r2 => Except.ok (JVal.jobj [], r2)
        | r1 =>
          match parseObjFields fuel r1 with
          | Except.error m => Except.error m
          | Except.ok (fs, r2) => Except.ok (JVal.jobj fs, r2)
      else if c = '-' || c.isDigit then
        parseNumber (c :: rest)
      else Except.error ("Unexpected token " ++ c.toString ++ " in JSON")

/-- Parse the elements of a non-empty JSON array (after the opening bracket). -/
def parseArrElems : Nat → List Char → Except String (List JVal × List Char)
  | 0, _ => Except.error "JSON input too deeply nested"
  | Nat.succ fuel, cs =>
    match parseVal fuel cs with
    | Except.error m => Except.error m
    | Except.ok (v, r1) =>
      match skipWs r1 with
      | ',' :: r2 =>
        match parseArrElems fuel r2 with
        | Except.error m => Except.error m
        | Except.ok (vs, r3) => Except.ok (v :: vs, r3)
      | ']' :: r2 => Except.ok ([v], r2)
      | _ => Except.error "Expected comma or close bracket after array element in JSON"

/-- Parse the fields of a non-empty JSON object (after the opening brace). -/
def parseObjFields : Nat → List Char → Except String (List (String × JVal) × List Char)
  | 0, _ => Except.error "JSON input too deeply nested"
  | Nat.succ fuel, cs =>
    match skipWs cs with
    | '"' :: r1 =>
      match parseStringBody r1 with
      | Except.error m => Except.error m
      | Except.ok (key, r2) =>
        match skipWs r2 with
        | ':' :: r3 =>
          match parseVal fuel r3 with
          | Except.error m => Except.error m
          | Except.ok (v, r4) =>
            match skipWs r4 with
            | ',' :: r5 =>
              match parseObjFields fuel r5 with
              | Except.error m => Except.error m
              | Except.ok (fs, r6) => Except.ok ((String.mk key, v) :: fs, r6)
            | '\x7d' :: r5 => Except.ok ([(String.mk key, v)], r5)
            | _ => Except.error "Expected comma or close brace after property value in JSON"
        | _ => Except.error "Expected colon after property name in JSON"
    | _ => Except.error "Expected property name or close brace in JSON"

end

/-- Model of the JavaScript `JSON.parse` collaborator on the fragment the
client exercises: parse a complete document, allowing trailing whitespace
only. -/
def jsonParseModel (s : String) : Except String JVal :=
  match parseVal (2 * s.length + 2) s.data with
  | Except.error m => Except.error m
  | Except.ok (v, rest) =>
    match skipWs rest with
    | [] => Except.ok v
    | _ => Except.error "Unexpected non-whitespace character after JSON"

/-- Escape one character for a JSON string literal, as `JSON.stringify` does. -/
def escapeChar (c : Char) : String :=
  if c = '"' then "\\\""
  else if c = '\\' then "\\\\"
  else if c = '\n' then "\\n"
  else if c = '\t' then "\\t"
  else if c = '\r' then "\\r"
  else c.toString

/-- Escape a string for inclusion in JSON output. -/
def escapeString (s : String) : String :=
  String.join (s.data.map escapeChar)

mutual

/-- Model of `JSON.stringify` on `JVal`: object fields serialize in insertion
order, matching JavaScript property order for string keys. -/
def stringifyVal : JVal → String
  | JVal.jnull => "null"
  | JVal.jbool true => "true"
  | JVal.jbool false => "false"
  | JVal.jnum n => toString n
  | JVal.jstr s => "\"" ++ escapeString s ++ "\""
  | JVal.jarr xs => "[" ++ stringifyElems xs ++ "]"
  | JVal.jobj fs => "\x7b" ++ stringifyFieldList fs ++ "\x7d"

/-- Comma-separated serialization of array elements. -/
def stringifyElems : List JVal → String
  | [] => ""
  | [v] => stringifyVal v
  | v :: w :: vs => stringifyVal v ++ "," ++ stringifyElems (w :: vs)

/-- Comma-separated serialization of object fields. -/
def stringifyFieldList : List (String × JVal) → String
  | [] => ""
  | [(k, v)] => "\"" ++ escapeString k ++ "\":" ++ stringifyVal v
  | (k, v) :: f :: fs =>
    "\"" ++ escapeString k ++ "\":" ++ stringifyVal v ++ "," ++ stringifyFieldList (f :: fs)

end

/-- First-match field lookup in a JS object modelled as an association list. -/
def getField : List (String × JVal) → String → Option JVal
  | [], _ => none
  | kv :: rest, k => if kv.1 = k then some kv.2 else getField rest k

/-- JS object-spread-with-extra-key semantics, as in
`\x7b ...params, stream: true \x7d` (src/index.ts line 520): if the key already
exists it keeps its insertion position and is overwritten, otherwise it is
appended last. -/
def jsSet (fields : List (String × JVal)) (k : String) (v : JVal) : List (String × JVal) :=
  if fields.any (fun kv => kv.1 = k) then
    fields.map (fun kv => if kv.1 = k then (kv.1, v) else kv)
  else fields ++ [(k, v)]

/-- The request body object of `_stream`:
`const requestBody = \x7b ...params, stream: true \x7d` (line 520). -/
def withStream (params : List (String × JVal)) : List (String × JVal) :=
  jsSet params "stream" (JVal.jbool true)

/-- The outbound HTTP request handed to the `EventSource` transport. -/
structure HttpRequest : Type where
  url : String
  method : String
  headers : List (String × String)
  body : String
deriving DecidableEq, Repr

/-- The request `_stream` issues (src/index.ts lines 519-529): a POST to the
given URL with bearer-auth and JSON content-type headers, whose body is the
serialization of the caller's params overlaid with `stream: true`. -/
def streamRequest (apiKey url : String) (params : List (String × JVal)) : HttpRequest :=
  { url := url
    method := "POST"
    headers := [("Authorization", "Bearer " ++ apiKey), ("Content-Type", "application/json")]
    body := stringifyVal (JVal.jobj (withStream params)) }

/-- A heap of JS objects, indexed by reference; models object identity so that
non-mutation of the caller's params object is expressible. -/
abbrev ObjStore : Type := List (List (String × JVal))

/-- Dereference an object. -/
def lookupObj (s : ObjStore) (r : Nat) : List (String × JVal) :=
  s.getD r []

/-- Store-level model of line 520: the spread allocates a fresh object holding
the caller's fields overlaid with `stream: true`; it only reads the caller's
object.  Returns the new store and the fresh reference. -/
def allocSpreadStream (s : ObjStore) (r : Nat) : ObjStore × Nat :=
  (s ++ [withStream (lookupObj s r)], s.length)

/-- Error objects passed to `onError`: either the `Error` constructed in the
message listener's catch block (line 538), or the transport's own error object
forwarded by the error listener (line 549). -/
inductive ErrObj : Type where
  | parseFail : String → ErrObj
  | transportFail : String → ErrObj
deriving DecidableEq, Repr

/-- One observed invocation of a caller callback. -/
inductive Call (α : Type) : Type where
  | onOpenCall : Call α
  | onDataCall : α → Call α
  | onDoneCall : Call α
  | onErrorCall : ErrObj → Call α
deriving DecidableEq, Repr

/-- The caller's callbacks.  `onData` is mandatory; the others are optional
(`none` = not supplied).  Each callback is modelled by its exception
behaviour: `none` = returns normally, `some m` = throws an exception whose
message is `m`. -/
structure Cbs (α : Type) : Type where
  onData : α → Option String
  onError : Option (ErrObj → Option String)
  onOpen : Option (Option String)
  onDone : Option (Option String)

/-- Well-behaved callbacks: none of them ever throws. -/
def Cbs.NoThrow (cb : Cbs α) : Prop :=
  (∀ v, cb.onData v = none) ∧
  (∀ f, cb.onError = some f → ∀ e, f e = none) ∧
  (cb.onOpen = none ∨ cb.onOpen = some none) ∧
  (cb.onDone = none ∨ cb.onDone = some none)

/-- Events the `EventSource` transport delivers to the session's listeners. -/
inductive TEvent : Type where
  | message : String → TEvent
  | transportError : String → TEvent
  | opened : TEvent
deriving DecidableEq, Repr

/-- An externally observable step of the session: a callback invocation, or an
exception escaping a listener to the event loop. -/
inductive Out (α : Type) : Type where
  | call : Call α → Out α
  | threw : String → Out α
deriving DecidableEq, Repr

/-- The catch block of the message listener (lines 536-541): wrap the caught
exception's message as `new Error('JSON Parse on ' + data + ' with error ' + m)`,
invoke `onError` if supplied, then `eventSource.close()` — unless `onError`
itself throws, in which case the close is never reached and the exception
escapes.  `pref` carries calls already made inside the try block. -/
def reportParseFailure (cb : Cbs α) (data cause : String) (pref : List (Call α)) :
    List (Call α) × Bool × Option String :=
  let eo := ErrObj.parseFail ("JSON Parse on " ++ data ++ " with error " ++ cause)
  match cb.onError with
  | none => (pref, true, none)
  | some f =>
    match f eo with
    | none => (pref ++ [Call.onErrorCall eo], true, none)
    | some m2 => (pref ++ [Call.onErrorCall eo], false, some m2)

/-- The `message` listener (src/index.ts lines 531-546).  JS truthiness: the
guard `event.data && event.data !== '[DONE]'` sends both the empty string and
the sentinel to the else branch (`onDone` + close).  The try block contains
both `JSON.parse(event.data)` and the `onData(data)` call, so an exception
thrown by `onData` lands in the same catch as a parse failure. -/
def handleMessage (parse : String → Except String α) (cb : Cbs α) (data : String) :
    List (Call α) × Bool × Option String :=
  if data ≠ "" ∧ data ≠ "[DONE]" then
    match parse data with
    | Except.ok v =>
      match cb.onData v with
      | none => ([Call.onDataCall v], false, none)
      | some m => reportParseFailure cb data m [Call.onDataCall v]
    | Except.error m => reportParseFailure cb data m []
  else
    match cb.onDone with
    | none => ([], true, none)
    | some none => ([Call.onDoneCall], true, none)
    | some (some m) => ([Call.onDoneCall], false, some m)

/-- The `error` listener (lines 548-551): `onError` if supplied, then close;
if `onError` throws, the close is not reached and the exception escapes. -/
def handleTransportError (cb : Cbs α) (e : String) : List (Call α) × Bool × Option String :=
  match cb.onError with
  | none => ([], true, none)
  | some f =>
    match f (ErrObj.transportFail e) with
    | none => ([Call.onErrorCall (ErrObj.transportFail e)], true, none)
    | some m => ([Call.onErrorCall (ErrObj.transportFail e)], false, some m)

/-- The `open` listener (lines 553-555): `onOpen` if supplied; never closes. -/
def handleOpen (cb : Cbs α) : List (Call α) × Bool × Option String :=
  match cb.onOpen with
  | none => ([], false, none)
  | some none => ([Call.onOpenCall], false, none)
  | some (some m) => ([Call.onOpenCall], false, some m)

/-- Dispatch one transport event to the corresponding listener. -/
def handleEvent (parse : String → Except String α) (cb : Cbs α) :
    TEvent → List (Call α) × Bool × Option String
  | TEvent.message data => handleMessage parse cb data
  | TEvent.transportError e => handleTransportError cb e
  | TEvent.opened => handleOpen cb

/-- Render an escaping exception as an observable step. -/
def escOuts : Option String → List (Out α)
  | none => []
  | some m => [Out.threw m]

/-- Run one session over a list of transport events.  The boolean is the
closed flag: once `eventSource.close()` has run, no listener fires again (an
exception escaping a listener does not close the source, so later events are
still dispatched). -/
def runSession (parse : String → Except String α) (cb : Cbs α) :
    Bool → List TEvent → List (Out α)
  | _, [] => []
  | true, _ :: evs => runSession parse cb true evs
  | false, e :: evs =>
    let r := handleEvent parse cb e
    r.1.map Out.call ++ escOuts r.2.2 ++ runSession parse cb r.2.1 evs

/-- The closed flag after a list of transport events. -/
def closedAfter (parse : String → Except String α) (cb : Cbs α) :
    Bool → List TEvent → Bool
  | c, [] => c
  | true, _ :: evs => closedAfter parse cb true evs
  | false, e :: evs => closedAfter parse cb (handleEvent parse cb e).2.1 evs

/-- Project an observable step to its callback invocation, if any. -/
def callOf : Out α → Option (Call α)
  | Out.call c => some c
  | Out.threw _ => none

/-- The sequence of callback invocations of a session run. -/
def sessionCalls (parse : String → Except String α) (cb : Cbs α)
    (c : Bool) (evs : List TEvent) : List (Call α) :=
  (runSession parse cb c evs).filterMap callOf

/-- Terminal callbacks in the sense of the lifecycle: `onDone` and `onError`. -/
def terminalCall : Call α → Bool
  | Call.onDoneCall => true
  | Call.onErrorCall _ => true
  | _ => false

/-- A set of well-behaved callbacks, all supplied, none throwing. -/
def cbW : Cbs JVal :=
  { onData := fun _ => none
    onError := some (fun _ => none)
    onOpen := some none
    onDone := some none }

/-- Callbacks whose `onData` throws an exception with message "boom". -/
def cbThrow : Cbs JVal :=
  { onData := fun _ => some "boom"
    onError := some (fun _ => none)
    onOpen := some none
    onDone := some none }

/-- Callbacks where every optional callback throws. -/
def cbThrowAll : Cbs JVal :=
  { onData := fun _ => some "boom"
    onError := some (fun _ => some "errboom")
    onOpen := some (some "openboom")
    onDone := some (some "doneboom") }

theorem cbW_noThrow : Cbs.NoThrow cbW := by
  refine ⟨fun v => rfl, ?_, Or.inr rfl, Or.inr rfl⟩
  intro f hf e
  cases hf
  rfl

theorem runSession_closed (parse : String → Except String α) (cb : Cbs α) :
    ∀ evs, runSession parse cb true evs = [] := by
  intro evs
  induction evs with
  | nil => rfl
  | cons e evs ih => simpa [runSession] using ih

theorem closedAfter_closed (parse : String → Except String α) (cb : Cbs α) :
    ∀ evs, closedAfter parse cb true evs = true := by
  intro evs
  induction evs with
  | nil => rfl
  | cons e evs ih => simpa [closedAfter] using ih

theorem runSession_append (parse : String → Except String α) (cb : Cbs α) :
    ∀ (xs ys : List TEvent) (c : Bool),
      runSession parse cb c (xs ++ ys) =
        runSession parse cb c xs ++ runSession parse cb (closedAfter parse cb c xs) ys := by
  intro xs
  induction xs with
  | nil => intro ys c; cases c <;> rfl
  | cons e xs ih =>
    intro ys c
    cases c with
    | true => simp [runSession, closedAfter, runSession_closed, closedAfter_closed]
    | false => simp [runSession, closedAfter, ih]

theorem closedAfter_append (parse : String → Except String α) (cb : Cbs α) :
    ∀ (xs ys : List TEvent) (c : Bool),
      closedAfter parse cb c (xs ++ ys) =
        closedAfter parse cb (closedAfter parse cb c xs) ys := by
  intro xs
  induction xs with
  | nil => intro ys c; cases c <;> rfl
  | cons e xs ih =>
    intro ys c
    cases c with
    | true => simp [closedAfter, closedAfter_closed]
    | false => simp [closedAfter, ih]

theorem filterMap_callOf_escOuts (esc : Option String) :
    (escOuts (α := α) esc).filterMap callOf = [] := by
  cases esc <;> rfl

theorem filterMap_callOf_map_call (cs : List (Call α)) :
    (cs.map Out.call).filterMap callOf = cs := by
  induction cs with
  | nil => rfl
  | cons c cs ih => simp [callOf, ih]

theorem sessionCalls_closed (parse : String → Except String α) (cb : Cbs α)
    (evs : List TEvent) : sessionCalls parse cb true evs = [] := by
  simp [sessionCalls, runSession_closed]

theorem sessionCalls_append (parse : String → Except String α) (cb : Cbs α)
    (xs ys : List TEvent) (c : Bool) :
    sessionCalls parse cb c (xs ++ ys) =
      sessionCalls parse cb c xs ++
        sessionCalls parse cb (closedAfter parse cb c xs) ys := by
  simp [sessionCalls, runSession_append]

theorem sessionCalls_cons (parse : String → Except String α) (cb : Cbs α)
    (e : TEvent) (evs : List TEvent) :
    sessionCalls parse cb false (e :: evs) =
      (handleEvent parse cb e).1 ++
        sessionCalls parse cb (handleEvent parse cb e).2.1 evs := by
  unfold sessionCalls
  rw [runSession]
  rw [List.filterMap_append, List.filterMap_append, filterMap_callOf_map_call,
    filterMap_callOf_escOuts, List.append_nil]

theorem closedAfter_cons (parse : String → Except String α) (cb : Cbs α)
    (e : TEvent) (evs : List TEvent) :
    closedAfter parse cb false (e :: evs) =
      closedAfter parse cb (handleEvent parse cb e).2.1 evs := by
  rfl

theorem closedAfter_nil (parse : String → Except String α) (cb : Cbs α) (c : Bool) :
    closedAfter parse cb c [] = c := by
  cases c <;> rfl

theorem runSession_cons (parse : String → Except String α) (cb : Cbs α)
    (e : TEvent) (evs : List TEvent) :
    runSession parse cb false (e :: evs) =
      (handleEvent parse cb e).1.map Out.call ++
        escOuts (handleEvent parse cb e).2.2 ++
          runSession parse cb (handleEvent parse cb e).2.1 evs := by
  rw [runSession.eq_def]

/-- Under well-behaved callbacks, every listener run emits no escaping
exception, makes at most one call, and any terminal call it makes is
accompanied by `close()`. -/
theorem handleEvent_noThrow (parse : String → Except String α) (cb : Cbs α)
    (hnt : cb.NoThrow) (e : TEvent) :
    (handleEvent parse cb e).2.2 = none ∧
      ((handleEvent parse cb e).1 = [] ∨
        ∃ c0, (handleEvent parse cb e).1 = [c0] ∧
          (terminalCall c0 = true → (handleEvent parse cb e).2.1 = true)) := by
  obtain ⟨hd, he, ho, hdn⟩ := hnt
  cases e with
  | opened =>
    rcases ho with h | h <;> simp [handleEvent, handleOpen, h, terminalCall]
  | transportError s =>
    cases hcb : cb.onError with
    | none => simp [handleEvent, handleTransportError, hcb]
    | some f =>
      have hf := he f hcb (ErrObj.transportFail s)
      simp [handleEvent, handleTransportError, hcb, hf]
  | message data =>
    by_cases hcond : data ≠ "" ∧ data ≠ "[DONE]"
    · cases hp : parse data with
      | ok v =>
        simp [handleEvent, handleMessage, if_pos hcond, hp, hd v, terminalCall]
      | error m =>
        cases hcb : cb.onError with
        | none =>
          simp [handleEvent, handleMessage, if_pos hcond, hp, reportParseFailure, hcb]
        | some f =>
          have hf := he f hcb (ErrObj.parseFail ("JSON Parse on " ++ data ++ " with error " ++ m))
          simp [handleEvent, handleMessage, if_pos hcond, hp, reportParseFailure, hcb, hf]
    · rcases hdn with h | h <;>
        simp [handleEvent, handleMessage, if_neg hcond, h, terminalCall]

/-- Under well-behaved callbacks, every callback invocation that is not the
last of the session's trace is non-terminal: a terminal callback can only be
the final one. -/
theorem sessionCalls_no_post_terminal (parse : String → Except String α) (cb : Cbs α)
    (hnt : cb.NoThrow) :
    ∀ (evs : List TEvent) (c : Bool) (i : Nat),
      i + 1 < (sessionCalls parse cb c evs).length →
      terminalCall ((sessionCalls parse cb c evs).getD i Call.onOpenCall) = false := by
  intro evs
  induction evs with
  | nil => intro c i h; simp [sessionCalls, runSession] at h
  | cons e evs ih =>
    intro c i h
    cases c with
    | true => rw [sessionCalls_closed] at h; simp at h
    | false =>
      rw [sessionCalls_cons] at h ⊢
      rcases (handleEvent_noThrow parse cb hnt e).2 with hnil | ⟨c0, hc0, hterm⟩
      · rw [hnil] at h ⊢
        simpa using ih _ i (by simpa using h)
      · rw [hc0] at h ⊢
        by_cases ht : terminalCall c0 = true
        · rw [hterm ht] at h
          rw [sessionCalls_closed] at h
          simp at h
        · cases i with
          | zero =>
            simpa [List.singleton_append] using Bool.eq_false_iff.mpr ht
          | succ j =>
            have hlen : j + 1 <
                (sessionCalls parse cb (handleEvent parse cb e).2.1 evs).length := by
              simpa [List.singleton_append] using h
            simpa [List.singleton_append] using ih _ j hlen

/-- Under well-behaved callbacks, at most one terminal callback fires per
session. -/
theorem sessionCalls_terminal_count (parse : String → Except String α) (cb : Cbs α)
    (hnt : cb.NoThrow) :
    ∀ (evs : List TEvent) (c : Bool),
      (sessionCalls parse cb c evs).countP (fun c0 => terminalCall c0) ≤ 1 := by
  intro evs
  induction evs with
  | nil => intro c; simp [sessionCalls, runSession]
  | cons e evs ih =>
    intro c
    cases c with
    | true => rw [sessionCalls_closed]; simp
    | false =>
      rw [sessionCalls_cons]
      rcases (handleEvent_noThrow parse cb hnt e).2 with hnil | ⟨c0, hc0, hterm⟩
      · rw [hnil]; simpa using ih _
      · rw [hc0]
        by_cases ht : terminalCall c0 = true
        · rw [hterm ht, sessionCalls_closed]
          simp [ht]
        · have hf : terminalCall c0 = false := Bool.eq_false_iff.mpr ht
          simpa [List.countP_append, List.countP_cons, hf] using ih _

theorem getField_map_overwrite (fs : List (String × JVal)) (k : String) (v : JVal)
    (h : fs.any (fun kv => kv.1 = k) = true) :
    getField (fs.map (fun kv => if kv.1 = k then (kv.1, v) else kv)) k = some v := by
  induction fs with
  | nil => simp at h
  | cons kv rest ih =>
    by_cases hk : kv.1 = k
    · simp [getField, hk]
    · have hr : rest.any (fun kv => kv.1 = k) = true := by
        simpa [List.any_cons, hk] using h
      simp [getField, hk, ih hr]

theorem getField_append_new (fs : List (String × JVal)) (k : String) (v : JVal)
    (h : fs.any (fun kv => kv.1 = k) = false) :
    getField (fs ++ [(k, v)]) k = some v := by
  induction fs with
  | nil => simp [getField]
  | cons kv rest ih =>
    have hk : ¬(kv.1 = k) := by
      intro hkk
      simp [List.any_cons, hkk] at h
    have hr : rest.any (fun kv => kv.1 = k) = false := by
      simpa [List.any_cons, hk] using h
    simp [getField, hk, ih hr]

/-- Setting a key via JS spread makes it read back as the new value. -/
theorem getField_jsSet_same (fs : List (String × JVal)) (k : String) (v : JVal) :
    getField (jsSet fs k v) k = some v := by
  by_cases h : fs.any (fun kv => kv.1 = k) = true
  · rw [jsSet, if_pos h]
    exact getField_map_overwrite fs k v h
  · have hf : fs.any (fun kv => kv.1 = k) = false := Bool.eq_false_iff.mpr h
    rw [jsSet, if_neg (by simp [hf])]
    exact getField_append_new fs k v hf

theorem getField_map_other (fs : List (String × JVal)) (k : String) (v : JVal)
    (k2 : String) (h : k2 ≠ k) :
    getField (fs.map (fun kv => if kv.1 = k then (kv.1, v) else kv)) k2 =
      getField fs k2 := by
  induction fs with
  | nil => rfl
  | cons kv rest ih =>
    have hnk : ¬(k = k2) := fun hkk => h hkk.symm
    by_cases hk : kv.1 = k
    · simp [getField, hk, hnk, ih]
    · simp [getField, hk, h, ih]

theorem getField_append_other (fs : List (String × JVal)) (k : String) (v : JVal)
    (k2 : String) (h : k2 ≠ k) :
    getField (fs ++ [(k, v)]) k2 = getField fs k2 := by
  induction fs with
  | nil =>
    have : ¬(k = k2) := fun hk => h hk.symm
    simp [getField, this]
  | cons kv rest ih =>
    by_cases hk2 : kv.1 = k2
    · simp [getField, hk2]
    · simp [getField, hk2, ih]

/-- Setting one key via JS spread leaves every other key's value unchanged. -/
theorem getField_jsSet_other (fs : List (String × JVal)) (k : String) (v : JVal)
    (k2 : String) (h : k2 ≠ k) :
    getField (jsSet fs k v) k2 = getField fs k2 := by
  by_cases hany : fs.any (fun kv => kv.1 = k) = true
  · rw [jsSet, if_pos hany]
    exact getField_map_other fs k v k2 h
  · rw [jsSet, if_neg hany]
    exact getField_append_other fs k v k2 h

theorem skipWs_all_ws : ∀ cs : List Char, (∀ c ∈ cs, isWsChar c = true) → skipWs cs = [] := by
  intro cs
  induction cs with
  | nil => intro _; rfl
  | cons c cs ih =>
    intro h
    have hc : isWsChar c = true := h c (List.mem_cons_self c cs)
    simp [skipWs, hc]
    exact ih fun x hx => h x (List.mem_cons_of_mem c hx)

/-- `JSON.parse` fails on a whitespace-only document (empty included) with the
end-of-input description. -/
theorem jsonParseModel_whitespace (s : String) (h : ∀ c ∈ s.data, isWsChar c = true) :
    jsonParseModel s = Except.error "Unexpected end of JSON input" := by
  have h2 : skipWs s.data = [] := skipWs_all_ws s.data h
  unfold jsonParseModel
  have hv : parseVal (2 * s.length + 2) s.data =
      Except.error "Unexpected end of JSON input" := by
    show parseVal (Nat.succ (2 * s.length + 1)) s.data = _
    rw [parseVal, h2]
  rw [hv]

/-- C1: for every streaming session with well-behaved callbacks, at most one
terminal callback (`onDone` or `onError`) fires, and no callback of any kind
(`onData`, `onOpen`, or a second terminal) is invoked after the first terminal
callback: every invocation that has a successor in the trace is
non-terminal. -/
theorem claim_C1 (parse : String → Except String α) (cb : Cbs α)
    (hnt : cb.NoThrow) (evs : List TEvent) :
    (sessionCalls parse cb false evs).countP (fun c0 => terminalCall c0) ≤ 1 ∧
      ∀ i : Nat, i + 1 < (sessionCalls parse cb false evs).length →
        terminalCall ((sessionCalls parse cb false evs).getD i Call.onOpenCall) = false :=
  ⟨sessionCalls_terminal_count parse cb hnt evs false,
    fun i h => sessionCalls_no_post_terminal parse cb hnt evs false i h⟩

theorem claim_C1_witness :
    Cbs.NoThrow cbW ∧
      ((sessionCalls jsonParseModel cbW false
          [TEvent.opened, TEvent.message "\x7b\"id\":1\x7d", TEvent.message "[DONE]",
            TEvent.message "\x7b\"id\":2\x7d"]).countP (fun c0 => terminalCall c0) ≤ 1 ∧
        ∀ i : Nat, i + 1 < (sessionCalls jsonParseModel cbW false
            [TEvent.opened, TEvent.message "\x7b\"id\":1\x7d", TEvent.message "[DONE]",
              TEvent.message "\x7b\"id\":2\x7d"]).length →
          terminalCall ((sessionCalls jsonParseModel cbW false
              [TEvent.opened, TEvent.message "\x7b\"id\":1\x7d", TEvent.message "[DONE]",
                TEvent.message "\x7b\"id\":2\x7d"]).getD i Call.onOpenCall) = false) :=
  ⟨cbW_noThrow, claim_C1 jsonParseModel cbW cbW_noThrow
    [TEvent.opened, TEvent.message "\x7b\"id\":1\x7d", TEvent.message "[DONE]",
      TEvent.message "\x7b\"id\":2\x7d"]⟩

/-- C2 counterexample: the empty payload is not valid JSON and is not the
sentinel `"[DONE]"`, yet the session invokes `onDone` (JS truthiness sends the
empty string to the else branch) and never invokes `onError`. -/
theorem claim_C2_counterexample :
    jsonParseModel "" = Except.error "Unexpected end of JSON input" ∧
      ("" : String) ≠ "[DONE]" ∧
      sessionCalls jsonParseModel cbW false [TEvent.message ""] = [Call.onDoneCall] ∧
      ∀ e, Call.onErrorCall e ∉ sessionCalls jsonParseModel cbW false [TEvent.message ""] := by
  refine ⟨rfl, by decide, rfl, ?_⟩
  intro e he
  rw [show sessionCalls jsonParseModel cbW false [TEvent.message ""] =
      [Call.onDoneCall] from rfl] at he
  simp at he

/-- C2 amended: for every frame whose payload is non-empty, not valid JSON and
not the sentinel, arriving while the session is open, the session invokes
`onError` (when supplied) exactly once with an error embedding the raw payload
and the parser's failure description, then closes the connection; no further
callback of any kind follows. -/
theorem claim_C2_amended (parse : String → Except String α) (cb : Cbs α)
    (hnt : cb.NoThrow) (f : ErrObj → Option String) (hf : cb.onError = some f)
    (data pm : String) (hne : data ≠ "") (hnd : data ≠ "[DONE]")
    (hp : parse data = Except.error pm) (pre post : List TEvent)
    (hopen : closedAfter parse cb false pre = false) :
    sessionCalls parse cb false (pre ++ TEvent.message data :: post) =
      sessionCalls parse cb false pre ++
        [Call.onErrorCall (ErrObj.parseFail
          ("JSON Parse on " ++ data ++ " with error " ++ pm))] ∧
      closedAfter parse cb false (pre ++ [TEvent.message data]) = true := by
  have hff := hnt.2.1 f hf
    (ErrObj.parseFail ("JSON Parse on " ++ data ++ " with error " ++ pm))
  have hev : handleEvent parse cb (TEvent.message data) =
      ([Call.onErrorCall (ErrObj.parseFail
        ("JSON Parse on " ++ data ++ " with error " ++ pm))], true, none) := by
    simp [handleEvent, handleMessage, hne, hnd, hp, reportParseFailure, hf, hff]
  constructor
  · rw [sessionCalls_append, hopen, sessionCalls_cons, hev]
    simp [sessionCalls_closed]
  · rw [closedAfter_append, hopen, closedAfter_cons, hev, closedAfter_nil]

theorem claim_C2_amended_witness :
    Cbs.NoThrow cbW ∧
      jsonParseModel "\x7bbad json" =
        Except.error "Expected property name or close brace in JSON" ∧
      (sessionCalls jsonParseModel cbW false
          ([TEvent.opened] ++ TEvent.message "\x7bbad json" :: [TEvent.message "1"]) =
        sessionCalls jsonParseModel cbW false [TEvent.opened] ++
          [Call.onErrorCall (ErrObj.parseFail
            ("JSON Parse on " ++ "\x7bbad json" ++ " with error " ++
              "Expected property name or close brace in JSON"))] ∧
        closedAfter jsonParseModel cbW false
          ([TEvent.opened] ++ [TEvent.message "\x7bbad json"]) = true) :=
  ⟨cbW_noThrow, rfl,
    claim_C2_amended jsonParseModel cbW cbW_noThrow (fun _ => none) rfl
      "\x7bbad json" "Expected property name or close brace in JSON"
      (by decide) (by decide) rfl [TEvent.opened] [TEvent.message "1"] rfl⟩

/-- C3: a frame whose payload is the sentinel `"[DONE]"`, arriving while the
session is open, makes the session invoke `onDone` (when supplied) and then
close the connection; no `onError` and no `onData` fires for that frame, and
nothing follows. -/
theorem claim_C3 (parse : String → Except String α) (cb : Cbs α)
    (hdone : cb.onDone = some none)
    (pre post : List TEvent) (hopen : closedAfter parse cb false pre = false) :
    sessionCalls parse cb false (pre ++ TEvent.message "[DONE]" :: post) =
      sessionCalls parse cb false pre ++ [Call.onDoneCall] ∧
      closedAfter parse cb false (pre ++ [TEvent.message "[DONE]"]) = true := by
  have hev : handleEvent parse cb (TEvent.message "[DONE]") =
      ([Call.onDoneCall], true, none) := by
    simp [handleEvent, handleMessage, hdone]
  constructor
  · rw [sessionCalls_append, hopen, sessionCalls_cons, hev]
    simp [sessionCalls_closed]
  · rw [closedAfter_append, hopen, closedAfter_cons, hev, closedAfter_nil]

theorem claim_C3_witness :
    cbW.onDone = some none ∧
      (sessionCalls jsonParseModel cbW false
          ([TEvent.opened] ++ TEvent.message "[DONE]" :: [TEvent.message "1"]) =
        sessionCalls jsonParseModel cbW false [TEvent.opened] ++ [Call.onDoneCall] ∧
        closedAfter jsonParseModel cbW false
          ([TEvent.opened] ++ [TEvent.message "[DONE]"]) = true) :=
  ⟨rfl, claim_C3 jsonParseModel cbW rfl [TEvent.opened] [TEvent.message "1"] rfl⟩

/-- C4: for a sequence of frames whose payloads are all non-empty valid JSON
and none the sentinel, the session invokes `onData` exactly once per frame
with the parsed payload, in exactly the frames' arrival order, with nothing
dropped, added, or reordered. -/
theorem claim_C4 (parse : String → Except String α) (cb : Cbs α) (hnt : cb.NoThrow)
    (datas : List String) (vs : List α)
    (h : List.Forall₂ (fun d v => d ≠ "" ∧ d ≠ "[DONE]" ∧ parse d = Except.ok v) datas vs) :
    sessionCalls parse cb false (datas.map TEvent.message) = vs.map Call.onDataCall := by
  induction h with
  | nil => rfl
  | @cons d v ds ws hdv hrest ih =>
    obtain ⟨hne, hnd, hp⟩ := hdv
    have hev : handleEvent parse cb (TEvent.message d) =
        ([Call.onDataCall v], false, none) := by
      simp [handleEvent, handleMessage, hne, hnd, hp, hnt.1 v]
    rw [List.map_cons, sessionCalls_cons, hev, List.map_cons]
    simpa using ih

theorem claim_C4_witness :
    Cbs.NoThrow cbW ∧
      List.Forall₂ (fun d v => d ≠ "" ∧ d ≠ "[DONE]" ∧ jsonParseModel d = Except.ok v)
        ["\x7b\"id\":1\x7d", "\x7b\"id\":2\x7d"]
        [JVal.jobj [("id", JVal.jnum 1)], JVal.jobj [("id", JVal.jnum 2)]] ∧
      sessionCalls jsonParseModel cbW false
          (["\x7b\"id\":1\x7d", "\x7b\"id\":2\x7d"].map TEvent.message) =
        ([JVal.jobj [("id", JVal.jnum 1)], JVal.jobj [("id", JVal.jnum 2)]].map
          Call.onDataCall) := by
  have hforall : List.Forall₂
      (fun d v => d ≠ "" ∧ d ≠ "[DONE]" ∧ jsonParseModel d = Except.ok v)
      ["\x7b\"id\":1\x7d", "\x7b\"id\":2\x7d"]
      [JVal.jobj [("id", JVal.jnum 1)], JVal.jobj [("id", JVal.jnum 2)]] := by
    refine List.Forall₂.cons ⟨by decide, by decide, rfl⟩ ?_
    exact List.Forall₂.cons ⟨by decide, by decide, rfl⟩ List.Forall₂.nil
  exact ⟨cbW_noThrow, hforall, claim_C4 jsonParseModel cbW cbW_noThrow _ _ hforall⟩

/-- C5 counterexample: a whitespace-only payload is not ignored — its JSON
parse fails, so the session invokes `onError` and closes, contradicting the
claim that no callback fires. -/
theorem claim_C5_counterexample :
    (∀ c ∈ (" " : String).data, isWsChar c = true) ∧
      sessionCalls jsonParseModel cbW false [TEvent.message " "] =
        [Call.onErrorCall (ErrObj.parseFail
          "JSON Parse on   with error Unexpected end of JSON input")] ∧
      sessionCalls jsonParseModel cbW false [TEvent.message " "] ≠ [] := by
  refine ⟨by decide, rfl, ?_⟩
  rw [show sessionCalls jsonParseModel cbW false [TEvent.message " "] =
      [Call.onErrorCall (ErrObj.parseFail
        "JSON Parse on   with error Unexpected end of JSON input")] from rfl]
  exact List.cons_ne_nil _ _

/-- C5 amended: no payload is silently ignored.  An empty payload is treated
as terminal (`onDone` when supplied, then close); a non-empty whitespace-only
payload fails JSON parsing, so the session invokes `onError` (when supplied)
with an error embedding the payload and the parser's end-of-input description,
then closes. -/
theorem claim_C5_amended (cb : Cbs JVal) (hnt : cb.NoThrow)
    (f : ErrObj → Option String) (hf : cb.onError = some f)
    (hdone : cb.onDone = some none) (data : String) :
    handleMessage jsonParseModel cb "" = ([Call.onDoneCall], true, none) ∧
      (data ≠ "" → (∀ c ∈ data.data, isWsChar c = true) →
        handleMessage jsonParseModel cb data =
          ([Call.onErrorCall (ErrObj.parseFail
            ("JSON Parse on " ++ data ++ " with error " ++ "Unexpected end of JSON input"))],
            true, none)) := by
  constructor
  · simp [handleMessage, hdone]
  · intro hne hws
    have hnd : data ≠ "[DONE]" := by
      intro hEq
      have hmem : '[' ∈ data.data := by
        rw [hEq]
        decide
      have := hws '[' hmem
      simp [isWsChar] at this
    have hp := jsonParseModel_whitespace data hws
    have hff := hnt.2.1 f hf
      (ErrObj.parseFail
        ("JSON Parse on " ++ data ++ " with error " ++ "Unexpected end of JSON input"))
    simp [handleMessage, hne, hnd, hp, reportParseFailure, hf, hff]

theorem claim_C5_amended_witness :
    Cbs.NoThrow cbW ∧
      (handleMessage jsonParseModel cbW "" = ([Call.onDoneCall], true, none) ∧
        ((" " : String) ≠ "" → (∀ c ∈ (" " : String).data, isWsChar c = true) →
          handleMessage jsonParseModel cbW " " =
            ([Call.onErrorCall (ErrObj.parseFail
              ("JSON Parse on " ++ " " ++ " with error " ++ "Unexpected end of JSON input"))],
              true, none))) :=
  ⟨cbW_noThrow, claim_C5_amended cbW cbW_noThrow (fun _ => none) rfl rfl " "⟩

/-- C6: a transport-level error arriving while the session is not closed makes
the session invoke `onError` (when supplied) with the transport's error and
then close, with nothing after; and a session whose transport only ever
signals errors (it never opens) delivers exactly one `onError` and never
`onDone` or `onOpen`. -/
theorem claim_C6 (parse : String → Except String α) (cb : Cbs α) (hnt : cb.NoThrow)
    (f : ErrObj → Option String) (hf : cb.onError = some f) :
    (∀ (e : String) (pre post : List TEvent),
        closedAfter parse cb false pre = false →
        sessionCalls parse cb false (pre ++ TEvent.transportError e :: post) =
          sessionCalls parse cb false pre ++
            [Call.onErrorCall (ErrObj.transportFail e)] ∧
          closedAfter parse cb false (pre ++ [TEvent.transportError e]) = true) ∧
      (∀ (e0 : String) (rest : List String),
        sessionCalls parse cb false ((e0 :: rest).map TEvent.transportError) =
          [Call.onErrorCall (ErrObj.transportFail e0)]) := by
  have hev : ∀ e : String, handleEvent parse cb (TEvent.transportError e) =
      ([Call.onErrorCall (ErrObj.transportFail e)], true, none) := by
    intro e
    simp [handleEvent, handleTransportError, hf, hnt.2.1 f hf (ErrObj.transportFail e)]
  constructor
  · intro e pre post hopen
    constructor
    · rw [sessionCalls_append, hopen, sessionCalls_cons, hev]
      simp [sessionCalls_closed]
    · rw [closedAfter_append, hopen, closedAfter_cons, hev, closedAfter_nil]
  · intro e0 rest
    rw [List.map_cons, sessionCalls_cons, hev]
    simp [sessionCalls_closed]

theorem claim_C6_witness :
    Cbs.NoThrow cbW ∧
      ((sessionCalls jsonParseModel cbW false
          ([TEvent.opened] ++ TEvent.transportError "boom" :: [TEvent.message "1"]) =
        sessionCalls jsonParseModel cbW false [TEvent.opened] ++
          [Call.onErrorCall (ErrObj.transportFail "boom")] ∧
        closedAfter jsonParseModel cbW false
          ([TEvent.opened] ++ [TEvent.transportError "boom"]) = true) ∧
      sessionCalls jsonParseModel cbW false
          (["refused", "again"].map TEvent.transportError) =
        [Call.onErrorCall (ErrObj.transportFail "refused")]) :=
  ⟨cbW_noThrow,
    (claim_C6 jsonParseModel cbW cbW_noThrow (fun _ => none) rfl).1
      "boom" [TEvent.opened] [TEvent.message "1"] rfl,
    (claim_C6 jsonParseModel cbW cbW_noThrow (fun _ => none) rfl).2 "refused" ["again"]⟩

/-- C7: the request `_stream` issues is a POST to the given URL with the
bearer-authorization and JSON content-type headers, and its body is the JSON
serialization of the caller's parameters with the boolean field `stream`
set to `true` (all other fields unchanged) before serialization. -/
theorem claim_C7 (apiKey url : String) (params : List (String × JVal)) (k : String)
    (hk : k ≠ "stream") :
    (streamRequest apiKey url params).method = "POST" ∧
      (streamRequest apiKey url params).url = url ∧
      (streamRequest apiKey url params).headers =
        [("Authorization", "Bearer " ++ apiKey), ("Content-Type", "application/json")] ∧
      (streamRequest apiKey url params).body =
        stringifyVal (JVal.jobj (withStream params)) ∧
      getField (withStream params) "stream" = some (JVal.jbool true) ∧
      getField (withStream params) k = getField params k :=
  ⟨rfl, rfl, rfl, rfl, getField_jsSet_same params "stream" (JVal.jbool true),
    getField_jsSet_other params "stream" (JVal.jbool true) k hk⟩

theorem claim_C7_witness :
    ("model" : String) ≠ "stream" ∧
      ((streamRequest "sk-1" "https://api.example.com/chat/completions"
          [("model", JVal.jstr "gpt")]).method = "POST" ∧
        (streamRequest "sk-1" "https://api.example.com/chat/completions"
          [("model", JVal.jstr "gpt")]).url = "https://api.example.com/chat/completions" ∧
        (streamRequest "sk-1" "https://api.example.com/chat/completions"
          [("model", JVal.jstr "gpt")]).headers =
          [("Authorization", "Bearer " ++ "sk-1"), ("Content-Type", "application/json")] ∧
        (streamRequest "sk-1" "https://api.example.com/chat/completions"
          [("model", JVal.jstr "gpt")]).body =
          stringifyVal (JVal.jobj (withStream [("model", JVal.jstr "gpt")])) ∧
        getField (withStream [("model", JVal.jstr "gpt")]) "stream" =
          some (JVal.jbool true) ∧
        getField (withStream [("model", JVal.jstr "gpt")]) "model" =
          getField [("model", JVal.jstr "gpt")] "model") :=
  ⟨by decide, claim_C7 "sk-1" "https://api.example.com/chat/completions"
    [("model", JVal.jstr "gpt")] "model" (by decide)⟩

/-- C8 counterexample: with a successfully parsed frame `"1"` and an `onData`
callback that throws "boom", the session's message listener catches the
exception (the try block spans both `JSON.parse` and `onData`), reports it via
`onError` as a JSON-parse error, and closes; no exception escapes to the
caller's scheduling context. -/
theorem claim_C8_counterexample :
    runSession jsonParseModel cbThrow false [TEvent.message "1"] =
      [Out.call (Call.onDataCall (JVal.jnum 1)),
        Out.call (Call.onErrorCall (ErrObj.parseFail "JSON Parse on 1 with error boom"))] ∧
      ∀ m, Out.threw m ∉ runSession jsonParseModel cbThrow false [TEvent.message "1"] := by
  refine ⟨rfl, ?_⟩
  intro m hm
  rw [show runSession jsonParseModel cbThrow false [TEvent.message "1"] =
      [Out.call (Call.onDataCall (JVal.jnum 1)),
        Out.call (Call.onErrorCall
          (ErrObj.parseFail "JSON Parse on 1 with error boom"))] from rfl] at hm
  simp at hm

/-- C8 amended: exceptions thrown by `onOpen`, `onDone`, or by `onError` in
the transport-error listener are not caught and escape to the scheduling
context (skipping the close).  An exception thrown by `onData` during dispatch
of a successfully parsed frame, however, is caught by the message listener's
try/catch and reported via `onError` (when supplied) as a JSON-parse error
embedding the payload and the exception message, after which the connection is
closed; it does not propagate. -/
theorem claim_C8_amended (parse : String → Except String α) (cb : Cbs α) :
    (∀ (data : String) (v : α) (m : String) (f : ErrObj → Option String),
        data ≠ "" → data ≠ "[DONE]" → parse data = Except.ok v →
        cb.onData v = some m → cb.onError = some f →
        f (ErrObj.parseFail ("JSON Parse on " ++ data ++ " with error " ++ m)) = none →
        handleMessage parse cb data =
          ([Call.onDataCall v, Call.onErrorCall (ErrObj.parseFail
            ("JSON Parse on " ++ data ++ " with error " ++ m))], true, none)) ∧
      (∀ m : String, cb.onDone = some (some m) →
        handleMessage parse cb "[DONE]" = ([Call.onDoneCall], false, some m)) ∧
      (∀ m : String, cb.onOpen = some (some m) →
        handleOpen cb = ([Call.onOpenCall], false, some m)) ∧
      (∀ (e m : String) (f : ErrObj → Option String), cb.onError = some f →
        f (ErrObj.transportFail e) = some m →
        handleTransportError cb e =
          ([Call.onErrorCall (ErrObj.transportFail e)], false, some m)) := by
  refine ⟨?_, ?_, ?_, ?_⟩
  · intro data v m f hne hnd hp hd hf hfe
    simp [handleMessage, hne, hnd, hp, hd, reportParseFailure, hf, hfe]
  · intro m hdone
    simp [handleMessage, hdone]
  · intro m hopen
    simp [handleOpen, hopen]
  · intro e m f hf hfe
    simp [handleTransportError, hf, hfe]

theorem claim_C8_amended_witness :
    handleMessage jsonParseModel cbThrow "1" =
      ([Call.onDataCall (JVal.jnum 1), Call.onErrorCall (ErrObj.parseFail
        ("JSON Parse on " ++ "1" ++ " with error " ++ "boom"))], true, none) ∧
      handleMessage jsonParseModel cbThrowAll "[DONE]" =
        ([Call.onDoneCall], false, some "doneboom") ∧
      handleOpen cbThrowAll = ([Call.onOpenCall], false, some "openboom") ∧
      handleTransportError cbThrowAll "net down" =
        ([Call.onErrorCall (ErrObj.transportFail "net down")], false, some "errboom") :=
  ⟨(claim_C8_amended jsonParseModel cbThrow).1 "1" (JVal.jnum 1) "boom" (fun _ => none)
      (by decide) (by decide) rfl rfl rfl rfl,
    (claim_C8_amended jsonParseModel cbThrowAll).2.1 "doneboom" rfl,
    (claim_C8_amended jsonParseModel cbThrowAll).2.2.1 "openboom" rfl,
    (claim_C8_amended jsonParseModel cbThrowAll).2.2.2 "net down" "errboom"
      (fun _ => some "errboom") rfl rfl⟩

/-- C9: the spread at line 520 never mutates the caller's params object: in
the store model it allocates a fresh reference holding the caller's fields
overlaid with `stream: true`, and every pre-existing object — in particular
the caller's — dereferences unchanged afterwards. -/
theorem claim_C9 (s : ObjStore) (r r2 : Nat) (h : r2 < s.length) :
    lookupObj (allocSpreadStream s r).1 r2 = lookupObj s r2 ∧
      (allocSpreadStream s r).2 = s.length ∧
      lookupObj (allocSpreadStream s r).1 (allocSpreadStream s r).2 =
        withStream (lookupObj s r) := by
  refine ⟨?_, rfl, ?_⟩
  · exact List.getD_append _ _ _ _ h
  · show (s ++ [withStream (lookupObj s r)]).getD s.length [] = _
    rw [List.getD_append_right _ _ _ _ (le_refl _)]
    simp [List.getD]

theorem claim_C9_witness :
    (1 : Nat) < ([[("model", JVal.jstr "gpt")], []] : ObjStore).length ∧
      (lookupObj (allocSpreadStream [[("model", JVal.jstr "gpt")], []] 0).1 1 =
        lookupObj [[("model", JVal.jstr "gpt")], []] 1 ∧
      (allocSpreadStream [[("model", JVal.jstr "gpt")], []] 0).2 =
        ([[("model", JVal.jstr "gpt")], []] : ObjStore).length ∧
      lookupObj (allocSpreadStream [[("model", JVal.jstr "gpt")], []] 0).1
          (allocSpreadStream [[("model", JVal.jstr "gpt")], []] 0).2 =
        withStream (lookupObj [[("model", JVal.jstr "gpt")], []] 0)) :=
  ⟨by decide, claim_C9 [[("model", JVal.jstr "gpt")], []] 0 1 (by decide)⟩

/-- C10: a frame with an empty payload is treated exactly like the sentinel
`"[DONE]"`: the whole session behaves identically on the two frames, and in
the open state the empty frame makes the session invoke `onDone` (when
supplied) and close. -/
theorem claim_C10 (parse : String → Except String α) (cb : Cbs α)
    (hdone : cb.onDone = some none) (pre post : List TEvent)
    (hopen : closedAfter parse cb false pre = false) :
    runSession parse cb false (pre ++ TEvent.message "" :: post) =
      runSession parse cb false (pre ++ TEvent.message "[DONE]" :: post) ∧
      sessionCalls parse cb false (pre ++ [TEvent.message ""]) =
        sessionCalls parse cb false pre ++ [Call.onDoneCall] ∧
      closedAfter parse cb false (pre ++ [TEvent.message ""]) = true := by
  have hmm : handleEvent parse cb (TEvent.message "") =
      handleEvent parse cb (TEvent.message "[DONE]") := by
    simp [handleEvent, handleMessage]
  have hev : handleEvent parse cb (TEvent.message "") = ([Call.onDoneCall], true, none) := by
    simp [handleEvent, handleMessage, hdone]
  refine ⟨?_, ?_, ?_⟩
  · have h2 : runSession parse cb false (TEvent.message "" :: post) =
        runSession parse cb false (TEvent.message "[DONE]" :: post) := by
      rw [runSession_cons, runSession_cons, hmm]
    rw [runSession_append, runSession_append, hopen, h2]
  · rw [sessionCalls_append, hopen, sessionCalls_cons, hev]
    simp [sessionCalls_closed]
  · rw [closedAfter_append, hopen, closedAfter_cons, hev, closedAfter_nil]

theorem claim_C10_witness :
    cbW.onDone = some none ∧
      (runSession jsonParseModel cbW false
          ([TEvent.opened] ++ TEvent.message "" :: [TEvent.message "1"]) =
        runSession jsonParseModel cbW false
          ([TEvent.opened] ++ TEvent.message "[DONE]" :: [TEvent.message "1"]) ∧
        sessionCalls jsonParseModel cbW false ([TEvent.opened] ++ [TEvent.message ""]) =
          sessionCalls jsonParseModel cbW false [TEvent.opened] ++ [Call.onDoneCall] ∧
        closedAfter jsonParseModel cbW false
          ([TEvent.opened] ++ [TEvent.message ""]) = true) :=
  ⟨rfl, claim_C10 jsonParseModel cbW rfl [TEvent.opened] [TEvent.message "1"] rfl⟩
